import Mathlib

/-!
Verification of the reconciliation logic of `cloudflareAAAA.py`.

The script keeps one AAAA record at a DNS provider in sync with the
machine public IPv6 address: it fetches all records of a zone, filters
them to those whose `name` equals the configured hostname and whose
`type` is "AAAA", creates a record when none matches, rewrites the first
matching record when its content differs from the resolved address, and
deletes every further matching record.

The embedding below mirrors the source: `stored_posts` is the list
comprehension of line 54, `reconcileCalls` collects the write requests
`__main` (lines 50-74) issues, `applyCall` gives the provider-side
meaning of each request, and `runMain` is the fallible run including the
JSON field extractions of `fetch_all_dns` and `update_dns_post`.
-/

/-- A DNS record as the provider returns it; the source reads the fields
`id`, `type`, `name` and `content` of each JSON object. -/
structure DNSRecord where
  id : String
  type : String
  name : String
  content : String
deriving DecidableEq, Repr

/-- One write request issued to the provider API: `create_dns_post`
(POST, lines 10-19), `update_dns_post` (PATCH, lines 28-38) or
`delete_dns_post` (DELETE, lines 40-48), with the payload fields the
source sends. -/
inductive WriteCall where
  | create (type name content : String)
  | update (id type name content : String)
  | delete (id : String)
deriving DecidableEq, Repr

/-- Configured hostname, the module constant of source line 6. -/
def HOSTNAME : String := "server.f-lg9.gnutt.se"

/-- Test of the list comprehension on line 54:
`post[name] == HOSTNAME and post[type] == "AAAA"` (keys quoted in the source). The hostname is a
parameter here; the source reads the module constant `HOSTNAME`. -/
def recordMatches (hostname : String) (post : DNSRecord) : Bool :=
  post.name == hostname && post.type == "AAAA"

/-- Line 54: `stored_posts = [post for post in allposts if ...]`. -/
def stored_posts (hostname : String) (allposts : List DNSRecord) : List DNSRecord :=
  allposts.filter (recordMatches hostname)

/-- Lines 60-63: given the first stored post, issue a PATCH carrying the
literal record type "AAAA" and the configured hostname whenever the
stored content differs from the resolved address. -/
def updateBranch (hostname public_ipv6 : String) (stored_post : DNSRecord) : List WriteCall :=
  if stored_post.content != public_ipv6 then
    [WriteCall.update stored_post.id "AAAA" hostname public_ipv6]
  else
    []

/-- Write calls one pass of `__main` (lines 53-72) issues, given the
record list the provider returned and the resolved address: the three
`if` blocks on `len(stored_posts)` in source order. `sp.drop 1` is the
slice `stored_posts[1:]` of line 67. -/
def reconcileCalls (hostname public_ipv6 : String) (allposts : List DNSRecord) : List WriteCall :=
  let sp := stored_posts hostname allposts
  (if sp.length == 0 then [WriteCall.create "AAAA" hostname public_ipv6] else []) ++
  (match sp with
    | [] => []
    | stored_post :: _ => updateBranch hostname public_ipv6 stored_post) ++
  (if sp.length > 1 then (sp.drop 1).map (fun p => WriteCall.delete p.id) else [])

/-- Provider-side effect of one write call: POST appends a record under a
provider-assigned fresh id, PATCH rewrites the record carrying the given
id, DELETE removes the record carrying the given id. -/
def applyCall (freshId : String) (state : List DNSRecord) : WriteCall → List DNSRecord
  | WriteCall.create t n c => state ++ [⟨freshId, t, n, c⟩]
  | WriteCall.update i t n c => state.map (fun r => if r.id == i then ⟨i, t, n, c⟩ else r)
  | WriteCall.delete i => state.filter (fun r => r.id != i)

/-- Provider-side effect of a sequence of write calls, first to last. -/
def applyCalls (freshId : String) (state : List DNSRecord) (calls : List WriteCall) : List DNSRecord :=
  calls.foldl (applyCall freshId) state

/-- Provider record list after one reconciliation pass over `state`. -/
def runFinal (freshId hostname public_ipv6 : String) (state : List DNSRecord) : List DNSRecord :=
  applyCalls freshId state (reconcileCalls hostname public_ipv6 state)

/-- Recognizer for POST calls in a trace. -/
def isCreate : WriteCall → Bool
  | WriteCall.create _ _ _ => true
  | _ => false

/-- Recognizer for PATCH calls in a trace. -/
def isUpdate : WriteCall → Bool
  | WriteCall.update _ _ _ _ => true
  | _ => false

/-- Recognizer for DELETE calls in a trace. -/
def isDelete : WriteCall → Bool
  | WriteCall.delete _ => true
  | _ => false

/-- The filter condition of the spec, stated propositionally: name equals
the configured hostname and type equals "AAAA". -/
def specMatches (hostname : String) (r : DNSRecord) : Prop :=
  r.name = hostname ∧ r.type = "AAAA"

instance (hostname : String) (r : DNSRecord) : Decidable (specMatches hostname r) := by
  unfold specMatches
  infer_instance

/-- Helper: the Boolean filter test of line 54 agrees with the spec
propositional reading of it. -/
theorem recordMatches_eq_decide (hostname : String) (r : DNSRecord) :
    recordMatches hostname r = decide (specMatches hostname r) := by
  by_cases h1 : r.name = hostname <;> by_cases h2 : r.type = "AAAA" <;>
    simp [recordMatches, specMatches, h1, h2]

/-- Helper: `stored_posts` distributes over append. -/
theorem stored_posts_append (hostname : String) (l1 l2 : List DNSRecord) :
    stored_posts hostname (l1 ++ l2) = stored_posts hostname l1 ++ stored_posts hostname l2 :=
  List.filter_append l1 l2

/-- C6: the filtered set the Reconciler operates on is exactly the
records whose name equals the configured hostname and whose type equals
"AAAA", kept in the provider-returned relative order (it is a sublist of
the fetched list). -/
theorem stored_posts_spec (hostname : String) (l : List DNSRecord) :
    stored_posts hostname l = l.filter (fun r => decide (specMatches hostname r)) ∧
    (stored_posts hostname l).Sublist l := by
  constructor
  · exact List.filter_congr (fun r _ => recordMatches_eq_decide hostname r)
  · exact List.filter_sublist l

/-- Helper: shape of the call trace when the filtered set is empty. -/
theorem reconcileCalls_of_empty (hostname a : String) (state : List DNSRecord)
    (hsp : stored_posts hostname state = []) :
    reconcileCalls hostname a state = [WriteCall.create "AAAA" hostname a] := by
  simp [reconcileCalls, hsp]

/-- Helper: after a pass over a state with no matching record, the
matching records are exactly the freshly created one. -/
theorem runFinal_of_empty (freshId hostname a : String) (state : List DNSRecord)
    (hsp : stored_posts hostname state = []) :
    stored_posts hostname (runFinal freshId hostname a state) =
      [⟨freshId, "AAAA", hostname, a⟩] := by
  rw [runFinal, reconcileCalls_of_empty hostname a state hsp]
  show stored_posts hostname (applyCall freshId state (WriteCall.create "AAAA" hostname a)) = _
  rw [applyCall, stored_posts_append, hsp]
  simp [stored_posts, recordMatches]

/-- C2: on a provider state with zero matching records, the pass issues
exactly one create call (type "AAAA", configured hostname, resolved
address) and nothing else, and afterwards exactly one matching record
exists and its content is the resolved address. -/
theorem run_zero_matching (freshId hostname a : String) (state : List DNSRecord)
    (h0 : stored_posts hostname state = []) :
    reconcileCalls hostname a state = [WriteCall.create "AAAA" hostname a] ∧
    stored_posts hostname (runFinal freshId hostname a state) =
      [⟨freshId, "AAAA", hostname, a⟩] :=
  ⟨reconcileCalls_of_empty hostname a state h0, runFinal_of_empty freshId hostname a state h0⟩

/-- Witness for C2 at a concrete state holding one non-matching record. -/
theorem run_zero_matching_witness :
    stored_posts "host.example" [⟨"r9", "A", "host.example", "192.0.2.7"⟩] = [] ∧
    (reconcileCalls "host.example" "2001:db8::1" [⟨"r9", "A", "host.example", "192.0.2.7"⟩] =
        [WriteCall.create "AAAA" "host.example" "2001:db8::1"] ∧
      stored_posts "host.example"
          (runFinal "rf" "host.example" "2001:db8::1" [⟨"r9", "A", "host.example", "192.0.2.7"⟩]) =
        [⟨"rf", "AAAA", "host.example", "2001:db8::1"⟩]) :=
  ⟨by decide, run_zero_matching "rf" "host.example" "2001:db8::1" _ (by decide)⟩

/-- Helper: shape of the call trace when the filtered set is non-empty:
the conditional update of the first entry, then one delete per further
entry, in order. -/
theorem reconcileCalls_cons (hostname a : String) (state : List DNSRecord)
    (p : DNSRecord) (rest : List DNSRecord)
    (hsp : stored_posts hostname state = p :: rest) :
    reconcileCalls hostname a state =
      updateBranch hostname a p ++ rest.map (fun q => WriteCall.delete q.id) := by
  rcases rest with _ | ⟨q, rest2⟩
  · simp [reconcileCalls, hsp]
  · simp [reconcileCalls, hsp]

/-- C3: on a provider state with exactly one matching record, the pass
issues a PATCH of that record to the resolved address exactly when its
content differed, and issues no create and no delete call: the whole
trace is that single conditional update. -/
theorem run_one_matching (hostname a : String) (state : List DNSRecord) (p : DNSRecord)
    (h1 : stored_posts hostname state = [p]) :
    reconcileCalls hostname a state =
      if p.content = a then [] else [WriteCall.update p.id "AAAA" hostname a] := by
  by_cases hc : p.content = a <;>
    simp [reconcileCalls, h1, updateBranch, hc]

/-- Witness for C3 at a concrete one-record state with differing content. -/
theorem run_one_matching_witness :
    stored_posts "host.example" [⟨"r1", "AAAA", "host.example", "2001:db8::1"⟩] =
      [(⟨"r1", "AAAA", "host.example", "2001:db8::1"⟩ : DNSRecord)] ∧
    reconcileCalls "host.example" "2001:db8::2"
        [⟨"r1", "AAAA", "host.example", "2001:db8::1"⟩] =
      if ("2001:db8::1" : String) = "2001:db8::2" then []
      else [WriteCall.update "r1" "AAAA" "host.example" "2001:db8::2"] :=
  ⟨by decide,
    run_one_matching "host.example" "2001:db8::2"
      [⟨"r1", "AAAA", "host.example", "2001:db8::1"⟩]
      ⟨"r1", "AAAA", "host.example", "2001:db8::1"⟩ (by decide)⟩

/-- C4: on a provider state with more than one matching record, the
DELETE calls of the pass are exactly one per matching record other than
the first, in the provider-returned order, and there are N-1 of them;
no hypothesis on the content of the first record is needed, so this holds
whether or not the first record was updated. -/
theorem run_many_matching (hostname a : String) (state : List DNSRecord)
    (hN : 1 < (stored_posts hostname state).length) :
    (reconcileCalls hostname a state).filter isDelete =
      ((stored_posts hostname state).drop 1).map (fun p => WriteCall.delete p.id) ∧
    ((reconcileCalls hostname a state).filter isDelete).length =
      (stored_posts hostname state).length - 1 := by
  rcases hsp : stored_posts hostname state with _ | ⟨p, rest⟩
  · rw [hsp] at hN
    simp at hN
  · have hcalls := reconcileCalls_cons hostname a state p rest hsp
    have hupd : (updateBranch hostname a p).filter isDelete = [] := by
      by_cases hpc : p.content != a <;> simp [updateBranch, hpc, isDelete]
    have hall : (rest.map (fun q => WriteCall.delete q.id)).filter isDelete =
        rest.map (fun q => WriteCall.delete q.id) :=
      List.filter_eq_self.mpr (by
        intro c hcmem
        rcases List.mem_map.mp hcmem with ⟨q, _, hq⟩
        rw [← hq]
        rfl)
    refine ⟨?_, ?_⟩
    · rw [hcalls, List.filter_append, hupd, hall]
      rfl
    · rw [hcalls, List.filter_append, hupd, hall]
      simp

/-- Witness for C4 at a concrete three-record state. -/
theorem run_many_matching_witness :
    1 < (stored_posts "host.example"
        [⟨"r1", "AAAA", "host.example", "2001:db8::9"⟩,
         ⟨"r2", "AAAA", "host.example", "2001:db8::9"⟩,
         ⟨"r3", "AAAA", "host.example", "2001:db8::5"⟩]).length ∧
    ((reconcileCalls "host.example" "2001:db8::9"
        [⟨"r1", "AAAA", "host.example", "2001:db8::9"⟩,
         ⟨"r2", "AAAA", "host.example", "2001:db8::9"⟩,
         ⟨"r3", "AAAA", "host.example", "2001:db8::5"⟩]).filter isDelete =
      ((stored_posts "host.example"
        [⟨"r1", "AAAA", "host.example", "2001:db8::9"⟩,
         ⟨"r2", "AAAA", "host.example", "2001:db8::9"⟩,
         ⟨"r3", "AAAA", "host.example", "2001:db8::5"⟩]).drop 1).map
          (fun p => WriteCall.delete p.id) ∧
    ((reconcileCalls "host.example" "2001:db8::9"
        [⟨"r1", "AAAA", "host.example", "2001:db8::9"⟩,
         ⟨"r2", "AAAA", "host.example", "2001:db8::9"⟩,
         ⟨"r3", "AAAA", "host.example", "2001:db8::5"⟩]).filter isDelete).length =
      (stored_posts "host.example"
        [⟨"r1", "AAAA", "host.example", "2001:db8::9"⟩,
         ⟨"r2", "AAAA", "host.example", "2001:db8::9"⟩,
         ⟨"r3", "AAAA", "host.example", "2001:db8::5"⟩]).length - 1) :=
  ⟨by decide, run_many_matching "host.example" "2001:db8::9" _ (by decide)⟩

/-- C9: one pass never issues both a create and an update: in every
trace the number of create calls is zero or the number of update calls
is zero, because the create block fires only on an empty filtered set
and the update block only on a non-empty one. -/
theorem create_update_exclusive (hostname a : String) (state : List DNSRecord) :
    (reconcileCalls hostname a state).countP isCreate = 0 ∨
    (reconcileCalls hostname a state).countP isUpdate = 0 := by
  rcases hsp : stored_posts hostname state with _ | ⟨p, rest⟩
  · right
    rw [reconcileCalls_of_empty hostname a state hsp]
    simp [isUpdate]
  · left
    rw [reconcileCalls_cons hostname a state p rest hsp, List.countP_append]
    have h1 : (updateBranch hostname a p).countP isCreate = 0 := by
      by_cases hpc : p.content != a <;> simp [updateBranch, hpc, isCreate]
    have h2 : (rest.map (fun q => WriteCall.delete q.id)).countP isCreate = 0 := by
      rw [List.countP_eq_zero]
      intro c hcmem
      rcases List.mem_map.mp hcmem with ⟨q, _, hq⟩
      rw [← hq]
      simp [isCreate]
    rw [h1, h2]

/-- C10: the PATCH issued for a differing primary record carries the
literal record type "AAAA" and the configured hostname — the record
argument here is arbitrary, its own `name` and `type` fields are not
constrained — and after the call is applied, every provider record
carrying the id of the primary record has name equal to the configured
hostname and type "AAAA". -/
theorem update_uses_literals (freshId hostname a : String) (r : DNSRecord)
    (hdiff : r.content ≠ a) :
    updateBranch hostname a r = [WriteCall.update r.id "AAAA" hostname a] ∧
    ∀ (s : List DNSRecord) (q : DNSRecord),
      q ∈ applyCalls freshId s (updateBranch hostname a r) → q.id = r.id →
      q.name = hostname ∧ q.type = "AAAA" := by
  have hbne : (r.content != a) = true := bne_iff_ne.mpr hdiff
  have hub : updateBranch hostname a r = [WriteCall.update r.id "AAAA" hostname a] := by
    simp [updateBranch, hbne]
  refine ⟨hub, ?_⟩
  intro s q hq hid
  rw [hub] at hq
  have happ : applyCalls freshId s [WriteCall.update r.id "AAAA" hostname a] =
      s.map (fun t => if t.id == r.id then ⟨r.id, "AAAA", hostname, a⟩ else t) := rfl
  rw [happ] at hq
  rcases List.mem_map.mp hq with ⟨t, _, ht⟩
  by_cases hteq : t.id = r.id
  · rw [beq_iff_eq.mpr hteq] at ht
    simp at ht
    rw [← ht]
    exact ⟨rfl, rfl⟩
  · rw [beq_eq_false_iff_ne.mpr hteq] at ht
    simp at ht
    rw [← ht] at hid
    exact absurd hid hteq

/-- Witness for C10: the primary carries a foreign name and type, yet
the PATCH and the post-state carry the configured pair. -/
theorem update_uses_literals_witness :
    ("old" : String) ≠ "2001:db8::7" ∧
    (updateBranch "y.example" "2001:db8::7" ⟨"y1", "TXT", "other.example", "old"⟩ =
        [WriteCall.update "y1" "AAAA" "y.example" "2001:db8::7"] ∧
      ∀ (s : List DNSRecord) (q : DNSRecord),
        q ∈ applyCalls "yf" s
          (updateBranch "y.example" "2001:db8::7" ⟨"y1", "TXT", "other.example", "old"⟩) →
        q.id = "y1" → q.name = "y.example" ∧ q.type = "AAAA") :=
  ⟨by decide,
    update_uses_literals "yf" "y.example" "2001:db8::7"
      ⟨"y1", "TXT", "other.example", "old"⟩ (by decide)⟩

/-- Helper: folding a list of DELETE calls filters out exactly the
records whose id is among the deleted ids. -/
theorem applyCalls_deletes (freshId : String) (ids : List String) (state : List DNSRecord) :
    applyCalls freshId state (ids.map WriteCall.delete) =
      state.filter (fun r => ids.all (fun i => r.id != i)) := by
  induction ids generalizing state with
  | nil => simp [applyCalls]
  | cons d ds ih =>
    have hstep : applyCalls freshId state ((d :: ds).map WriteCall.delete) =
        applyCalls freshId (state.filter (fun r => r.id != d)) (ds.map WriteCall.delete) := rfl
    rw [hstep, ih, List.filter_filter]
    apply List.filter_congr
    intro r _
    rw [List.all_cons, Bool.and_comm]

/-- Helper: the line-54 filter commutes with any other filter. -/
theorem stored_posts_filter (hostname : String) (q : DNSRecord → Bool) (l : List DNSRecord) :
    stored_posts hostname (l.filter q) = (stored_posts hostname l).filter q := by
  rw [stored_posts, stored_posts, List.filter_filter, List.filter_filter]
  exact List.filter_congr (fun r _ => Bool.and_comm _ _)

/-- Helper: after a pass over a state with distinct record ids whose
filtered set is `p :: rest`, the matching records are exactly the
primary `p`, rewritten in place when its content differed. -/
theorem runFinal_of_cons (freshId hostname a : String) (state : List DNSRecord)
    (p : DNSRecord) (rest : List DNSRecord)
    (hnd : (state.map DNSRecord.id).Nodup)
    (hsp : stored_posts hostname state = p :: rest) :
    stored_posts hostname (runFinal freshId hostname a state) =
      [if p.content = a then p else ⟨p.id, "AAAA", hostname, a⟩] := by
  have hsub : (p :: rest).Sublist state := by
    rw [← hsp]
    exact List.filter_sublist state
  have hndsp : ((p :: rest).map DNSRecord.id).Nodup :=
    List.Nodup.sublist (List.Sublist.map DNSRecord.id hsub) hnd
  have hpid : p.id ∉ rest.map DNSRecord.id := by
    rw [List.map_cons] at hndsp
    exact (List.nodup_cons.mp hndsp).1
  have hinj : ∀ x ∈ state, ∀ y ∈ state, x.id = y.id → x = y := by
    intro x hx y hy hxy
    exact List.inj_on_of_nodup_map hnd hx hy hxy
  have hpmem : p ∈ stored_posts hostname state := by
    rw [hsp]
    exact List.mem_cons_self p rest
  have hpstate : p ∈ state := List.mem_of_mem_filter hpmem
  have hpmatch : recordMatches hostname p = true := by
    have hm := hpmem
    simp only [stored_posts] at hm
    exact (List.mem_filter.mp hm).2
  have hdelp : ((rest.map DNSRecord.id).all (fun i => p.id != i)) = true := by
    rw [List.all_eq_true]
    intro i hi
    exact bne_iff_ne.mpr (fun he => hpid (he ▸ hi))
  have hpfields : p.name = hostname ∧ p.type = "AAAA" := by
    have hb := hpmatch
    simp only [recordMatches] at hb
    rw [Bool.and_eq_true] at hb
    exact ⟨beq_iff_eq.mp hb.1, beq_iff_eq.mp hb.2⟩
  have hfil : (p :: rest).filter
      (fun r => (rest.map DNSRecord.id).all (fun i => r.id != i)) = [p] := by
    have hnil : rest.filter
        (fun r => (rest.map DNSRecord.id).all (fun i => r.id != i)) = [] := by
      rw [List.filter_eq_nil_iff]
      intro r hr hall
      have hxr := List.all_eq_true.mp hall r.id (List.mem_map_of_mem DNSRecord.id hr)
      simp at hxr
    rw [List.filter_cons]
    simp [hdelp, hnil]
  have hmapdel : rest.map (fun q => WriteCall.delete q.id) =
      (rest.map DNSRecord.id).map WriteCall.delete := by
    rw [List.map_map]
    rfl
  by_cases hpc : p.content = a
  · have hbnef : (p.content != a) = false := by
      rw [hpc]
      exact bne_self_eq_false a
    have hcalls : reconcileCalls hostname a state =
        rest.map (fun q => WriteCall.delete q.id) := by
      rw [reconcileCalls_cons hostname a state p rest hsp]
      simp [updateBranch, hbnef]
    rw [if_pos hpc, runFinal, hcalls, hmapdel, applyCalls_deletes,
      stored_posts_filter, hsp, hfil]
  · have hbne : (p.content != a) = true := bne_iff_ne.mpr hpc
    have hcalls : reconcileCalls hostname a state =
        WriteCall.update p.id "AAAA" hostname a ::
          rest.map (fun q => WriteCall.delete q.id) := by
      rw [reconcileCalls_cons hostname a state p rest hsp]
      simp [updateBranch, hbne]
    rw [if_neg hpc, runFinal, hcalls]
    have hstep : applyCalls freshId state
        (WriteCall.update p.id "AAAA" hostname a ::
          rest.map (fun q => WriteCall.delete q.id)) =
        applyCalls freshId
          (state.map (fun t => if t.id == p.id then ⟨p.id, "AAAA", hostname, a⟩ else t))
          (rest.map (fun q => WriteCall.delete q.id)) := rfl
    rw [hstep, hmapdel, applyCalls_deletes]
    have hidf : ∀ t : DNSRecord,
        (if t.id == p.id then (⟨p.id, "AAAA", hostname, a⟩ : DNSRecord) else t).id = t.id := by
      intro t
      by_cases ht : t.id = p.id
      · rw [beq_iff_eq.mpr ht]
        simp [ht]
      · rw [beq_eq_false_iff_ne.mpr ht]
        simp
    rw [List.filter_map]
    have hcomp : state.filter
        ((fun r => (rest.map DNSRecord.id).all (fun i => r.id != i)) ∘
          (fun t => if t.id == p.id then (⟨p.id, "AAAA", hostname, a⟩ : DNSRecord) else t)) =
        state.filter (fun r => (rest.map DNSRecord.id).all (fun i => r.id != i)) := by
      apply List.filter_congr
      intro t _
      simp only [Function.comp_apply]
      rw [hidf t]
    rw [hcomp]
    have hsp1 : stored_posts hostname
        ((state.filter (fun r => (rest.map DNSRecord.id).all (fun i => r.id != i))).map
          (fun t => if t.id == p.id then (⟨p.id, "AAAA", hostname, a⟩ : DNSRecord) else t)) =
        ((state.filter (fun r => (rest.map DNSRecord.id).all (fun i => r.id != i))).filter
          ((recordMatches hostname) ∘
            (fun t => if t.id == p.id then (⟨p.id, "AAAA", hostname, a⟩ : DNSRecord) else t))).map
          (fun t => if t.id == p.id then (⟨p.id, "AAAA", hostname, a⟩ : DNSRecord) else t) := by
      rw [stored_posts, List.filter_map]
    rw [hsp1]
    have hmatchcomp : (state.filter
          (fun r => (rest.map DNSRecord.id).all (fun i => r.id != i))).filter
        ((recordMatches hostname) ∘
          (fun t => if t.id == p.id then (⟨p.id, "AAAA", hostname, a⟩ : DNSRecord) else t)) =
        (state.filter
          (fun r => (rest.map DNSRecord.id).all (fun i => r.id != i))).filter
          (recordMatches hostname) := by
      apply List.filter_congr
      intro t htmem
      simp only [Function.comp_apply]
      by_cases ht : t.id = p.id
      · have htp : t = p := hinj t (List.mem_of_mem_filter htmem) p hpstate ht
        rw [htp, beq_iff_eq.mpr rfl, hpmatch]
        simp [recordMatches]
      · rw [beq_eq_false_iff_ne.mpr ht]
        simp
    rw [hmatchcomp]
    have hsp2 : (state.filter
          (fun r => (rest.map DNSRecord.id).all (fun i => r.id != i))).filter
        (recordMatches hostname) =
        (stored_posts hostname state).filter
          (fun r => (rest.map DNSRecord.id).all (fun i => r.id != i)) :=
      stored_posts_filter hostname _ state
    rw [hsp2, hsp, hfil]
    simp

/-- Helper: after one pass over a state with distinct record ids,
exactly one matching record remains and its content is the resolved
address. -/
theorem runFinal_matching (freshId hostname a : String) (state : List DNSRecord)
    (hnd : (state.map DNSRecord.id).Nodup) :
    ∃ r : DNSRecord, stored_posts hostname (runFinal freshId hostname a state) = [r] ∧
      r.content = a := by
  rcases hsp : stored_posts hostname state with _ | ⟨p, rest⟩
  · exact ⟨⟨freshId, "AAAA", hostname, a⟩, runFinal_of_empty freshId hostname a state hsp, rfl⟩
  · by_cases hpc : p.content = a
    · refine ⟨p, ?_, hpc⟩
      rw [runFinal_of_cons freshId hostname a state p rest hnd hsp, if_pos hpc]
    · refine ⟨⟨p.id, "AAAA", hostname, a⟩, ?_, rfl⟩
      rw [runFinal_of_cons freshId hostname a state p rest hnd hsp, if_neg hpc]

/-- C1: after one pass over any provider state with distinct
provider-assigned record ids, at most one record matching the
configured (hostname, "AAAA") pair exists, and the content of every matching record is the resolved address. -/
theorem run_invariant (freshId hostname a : String) (state : List DNSRecord)
    (hnd : (state.map DNSRecord.id).Nodup) :
    (stored_posts hostname (runFinal freshId hostname a state)).length ≤ 1 ∧
    ∀ r ∈ stored_posts hostname (runFinal freshId hostname a state), r.content = a := by
  rcases runFinal_matching freshId hostname a state hnd with ⟨r, hr, hc⟩
  rw [hr]
  refine ⟨by simp, ?_⟩
  intro q hq
  rw [List.mem_singleton.mp hq]
  exact hc

/-- Witness for C1 at a concrete state with two matching records and
one unrelated record. -/
theorem run_invariant_witness :
    (([⟨"w1", "AAAA", "w.example", "2001:db8::a"⟩,
       ⟨"w2", "AAAA", "w.example", "2001:db8::b"⟩,
       ⟨"w3", "A", "w.example", "192.0.2.1"⟩] : List DNSRecord).map DNSRecord.id).Nodup ∧
    ((stored_posts "w.example" (runFinal "wf" "w.example" "2001:db8::c"
        [⟨"w1", "AAAA", "w.example", "2001:db8::a"⟩,
         ⟨"w2", "AAAA", "w.example", "2001:db8::b"⟩,
         ⟨"w3", "A", "w.example", "192.0.2.1"⟩])).length ≤ 1 ∧
      ∀ r ∈ stored_posts "w.example" (runFinal "wf" "w.example" "2001:db8::c"
        [⟨"w1", "AAAA", "w.example", "2001:db8::a"⟩,
         ⟨"w2", "AAAA", "w.example", "2001:db8::b"⟩,
         ⟨"w3", "A", "w.example", "192.0.2.1"⟩]), r.content = "2001:db8::c") :=
  ⟨by decide, run_invariant "wf" "w.example" "2001:db8::c" _ (by decide)⟩

/-- C5: running a second pass immediately after a completed first pass,
with the same resolved address, issues zero write calls. -/
theorem run_idempotent (freshId hostname a : String) (state : List DNSRecord)
    (hnd : (state.map DNSRecord.id).Nodup) :
    reconcileCalls hostname a (runFinal freshId hostname a state) = [] := by
  rcases runFinal_matching freshId hostname a state hnd with ⟨r, hr, hc⟩
  rw [reconcileCalls_cons hostname a (runFinal freshId hostname a state) r [] hr]
  simp [updateBranch, hc]

/-- Witness for C5 at a concrete state with two matching records. -/
theorem run_idempotent_witness :
    (([⟨"x1", "AAAA", "x.example", "2001:db8::1"⟩,
       ⟨"x2", "AAAA", "x.example", "2001:db8::2"⟩] : List DNSRecord).map DNSRecord.id).Nodup ∧
    reconcileCalls "x.example" "2001:db8::3" (runFinal "xf" "x.example" "2001:db8::3"
        [⟨"x1", "AAAA", "x.example", "2001:db8::1"⟩,
         ⟨"x2", "AAAA", "x.example", "2001:db8::2"⟩]) = [] :=
  ⟨by decide, run_idempotent "xf" "x.example" "2001:db8::3" _ (by decide)⟩

/-- Result of one HTTP call, seen through the JSON field extraction the
source performs on it: either the decoded `result` payload, or a
response whose status or shape makes the extraction of the field `result` from the decoded JSON raise. -/
inductive APIResponse (α : Type) where
  | ok (result : α)
  | malformed

/-- The unhandled Python exception a failed extraction raises; the
source installs no handler, so it ends the run. -/
inductive Fault where
  | unhandled
deriving DecidableEq, Repr

/-- Extraction of the field `result` from the decoded response: no retry, no status check; a
malformed response raises. -/
def extractResult {α : Type} : APIResponse α → Except Fault α
  | APIResponse.ok v => Except.ok v
  | APIResponse.malformed => Except.error Fault.unhandled

/-- External world of one run: the address-resolver response and the
provider responses to the GET, PATCH and DELETE calls. The POST
response of `create_dns_post` is returned unparsed by the source (line
19), so no field of it is ever extracted and it needs no entry here. -/
structure Env where
  ipResp : Except Fault String
  fetchResp : APIResponse (List DNSRecord)
  updateResp : APIResponse DNSRecord
  deleteResp : String → APIResponse DNSRecord

/-- Lines 21-26, `fetch_all_dns`: GET, then extract the field `result` from the decoded body. -/
def fetch_all_dns (env : Env) : Except Fault (List DNSRecord) :=
  extractResult env.fetchResp

/-- Lines 28-38, `update_dns_post`: PATCH, then extract the field `result` from the decoded body. -/
def update_dns_post (env : Env) : Except Fault DNSRecord :=
  extractResult env.updateResp

/-- Lines 40-48, `delete_dns_post`: DELETE, then extract the field `result` from the decoded body. -/
def delete_dns_post (env : Env) (i : String) : Except Fault DNSRecord :=
  extractResult (env.deleteResp i)

/-- The loop of lines 67-72: delete each surplus post in order; an
extraction fault aborts the loop and propagates. -/
def runDeletes (env : Env) : List DNSRecord → Except Fault Unit
  | [] => Except.ok ()
  | r :: rs =>
    match delete_dns_post env r.id with
    | Except.error e => Except.error e
    | Except.ok _ => runDeletes env rs

/-- Fallible embedding of `__main` (lines 50-74): resolve the address,
fetch and filter the records, then run the three blocks in source order,
propagating the fault of any JSON extraction; on completion it returns
the write calls issued together with the Python return value 0. -/
def runMain (hostname : String) (env : Env) : Except Fault (List WriteCall × Nat) :=
  match env.ipResp with
  | Except.error e => Except.error e
  | Except.ok public_ipv6 =>
    match fetch_all_dns env with
    | Except.error e => Except.error e
    | Except.ok allposts =>
      let sp := stored_posts hostname allposts
      let createCalls : List WriteCall :=
        if sp.length == 0 then [WriteCall.create "AAAA" hostname public_ipv6] else []
      let updateStep : Except Fault (List WriteCall) :=
        match sp with
        | [] => Except.ok []
        | stored_post :: _ =>
          if stored_post.content != public_ipv6 then
            match update_dns_post env with
            | Except.error e => Except.error e
            | Except.ok _ =>
                Except.ok [WriteCall.update stored_post.id "AAAA" hostname public_ipv6]
          else
            Except.ok []
      match updateStep with
      | Except.error e => Except.error e
      | Except.ok updateCalls =>
        let deleteStep : Except Fault (List WriteCall) :=
          if sp.length > 1 then
            match runDeletes env (sp.drop 1) with
            | Except.error e => Except.error e
            | Except.ok _ => Except.ok ((sp.drop 1).map (fun p => WriteCall.delete p.id))
          else
            Except.ok []
        match deleteStep with
        | Except.error e => Except.error e
        | Except.ok deleteCalls => Except.ok (createCalls ++ updateCalls ++ deleteCalls, 0)

/-- Process exit status of `python3 cloudflareAAAA.py`: line 77 discards
the value `__main` returns, so a completed run exits 0 whatever that
value was; an unhandled exception makes the interpreter exit 1. -/
def scriptExit : Except Fault (List WriteCall × Nat) → Nat
  | Except.ok _ => 0
  | Except.error _ => 1

/-- Agreement of the fallible run with the pure trace model: when every
consulted call succeeds, `runMain` completes with exactly the calls of
`reconcileCalls` and return value 0. -/
theorem runMain_agrees (hostname ip : String) (env : Env) (recs : List DNSRecord)
    (u d : DNSRecord)
    (hip : env.ipResp = Except.ok ip) (hf : env.fetchResp = APIResponse.ok recs)
    (hu : env.updateResp = APIResponse.ok u)
    (hd : ∀ i, env.deleteResp i = APIResponse.ok d) :
    runMain hostname env = Except.ok (reconcileCalls hostname ip recs, 0) := by
  have hfe : fetch_all_dns env = Except.ok recs := by
    simp [fetch_all_dns, hf, extractResult]
  have hdel : ∀ l : List DNSRecord, runDeletes env l = Except.ok () := by
    intro l
    induction l with
    | nil => rfl
    | cons r rs ih => simp [runDeletes, delete_dns_post, hd r.id, extractResult, ih]
  rcases hsp : stored_posts hostname recs with _ | ⟨p, rest⟩
  · rw [reconcileCalls_of_empty hostname ip recs hsp]
    simp [runMain, hip, hfe, hsp]
  · rw [reconcileCalls_cons hostname ip recs p rest hsp]
    by_cases hpc : p.content != ip
    · simp [runMain, hip, hfe, hsp, hpc, update_dns_post, hu, extractResult, hdel,
        updateBranch]
      rcases rest with _ | ⟨q, rest2⟩
      · simp
      · simp
    · simp [runMain, hip, hfe, hsp, hpc, updateBranch]
      rcases rest with _ | ⟨q, rest2⟩
      · simp
      · simp [hdel]

/-- Environment whose fetch yields a response with no extractable
`result` field. -/
def envDown : Env where
  ipResp := Except.ok "2001:db8::1"
  fetchResp := APIResponse.malformed
  updateResp := APIResponse.malformed
  deleteResp := fun _ => APIResponse.malformed

/-- C7 counterexample: on a run whose fetch response is malformed, the
extraction raises, the exception is unhandled, and the process exit
status is 1, not the success status. -/
theorem exit_not_always_zero : scriptExit (runMain HOSTNAME envDown) ≠ 0 := by
  decide

/-- C7 (amended): every run that completes without an unhandled fault
exits with the success status, whatever write calls were issued and
whatever value `__main` returned — line 77 discards that value, so no
failure mode gets a distinct exit code on a completed run; a faulting
run instead terminates abnormally with a nonzero status. -/
theorem exit_zero_of_completed (hostname : String) (env : Env)
    (calls : List WriteCall) (ret : Nat)
    (hok : runMain hostname env = Except.ok (calls, ret)) :
    scriptExit (runMain hostname env) = 0 := by
  rw [hok]
  rfl

/-- Environment for a run that completes with nothing to do. -/
def envIdle : Env where
  ipResp := Except.ok "2001:db8::5"
  fetchResp := APIResponse.ok [⟨"z1", "AAAA", HOSTNAME, "2001:db8::5"⟩]
  updateResp := APIResponse.ok ⟨"z1", "AAAA", HOSTNAME, "2001:db8::5"⟩
  deleteResp := fun _ => APIResponse.malformed

/-- Witness for the amended C7 at a concrete completed run. -/
theorem exit_zero_of_completed_witness :
    runMain HOSTNAME envIdle = Except.ok ([], 0) ∧
    scriptExit (runMain HOSTNAME envIdle) = 0 :=
  ⟨rfl, exit_zero_of_completed HOSTNAME envIdle [] 0 rfl⟩

/-- C8: a provider response from which extracting the JSON field
`result` fails is not retried and not specially handled: the fault
propagates as an unhandled error that ends the run abnormally. Stated
both for the GET of `fetch_all_dns` (environment `envF`) and for the
PATCH of `update_dns_post` on the update path (environment `envU`). -/
theorem fault_propagates (hostname ip : String) (envF envU : Env)
    (recs : List DNSRecord) (p : DNSRecord) (rest : List DNSRecord)
    (hmalF : envF.fetchResp = APIResponse.malformed)
    (hipU : envU.ipResp = Except.ok ip)
    (hfU : envU.fetchResp = APIResponse.ok recs)
    (hspU : stored_posts hostname recs = p :: rest)
    (hdiff : p.content ≠ ip)
    (hmalU : envU.updateResp = APIResponse.malformed) :
    runMain hostname envF = Except.error Fault.unhandled ∧
    runMain hostname envU = Except.error Fault.unhandled := by
  constructor
  · have hfe : fetch_all_dns envF = Except.error Fault.unhandled := by
      simp [fetch_all_dns, hmalF, extractResult]
    cases hip : envF.ipResp with
    | error e =>
      cases e
      simp [runMain, hip]
    | ok ip2 => simp [runMain, hip, hfe]
  · have hfe : fetch_all_dns envU = Except.ok recs := by
      simp [fetch_all_dns, hfU, extractResult]
    have hue : update_dns_post envU = Except.error Fault.unhandled := by
      simp [update_dns_post, hmalU, extractResult]
    simp [runMain, hipU, hfe, hspU, hue, bne_iff_ne.mpr hdiff]

/-- Environment whose GET response is malformed while everything else
would succeed. -/
def envFetchDown : Env where
  ipResp := Except.ok "2001:db8::8"
  fetchResp := APIResponse.malformed
  updateResp := APIResponse.ok ⟨"q1", "AAAA", "q.example", "2001:db8::1"⟩
  deleteResp := fun _ => APIResponse.ok ⟨"q1", "AAAA", "q.example", "2001:db8::1"⟩

/-- Environment whose PATCH response is malformed on a run that needs
an update. -/
def envPatchDown : Env where
  ipResp := Except.ok "2001:db8::8"
  fetchResp := APIResponse.ok [⟨"q1", "AAAA", "q.example", "2001:db8::1"⟩]
  updateResp := APIResponse.malformed
  deleteResp := fun _ => APIResponse.ok ⟨"q1", "AAAA", "q.example", "2001:db8::1"⟩

/-- Witness for C8 at the two concrete environments. -/
theorem fault_propagates_witness :
    envFetchDown.fetchResp = APIResponse.malformed ∧
    envPatchDown.ipResp = Except.ok "2001:db8::8" ∧
    envPatchDown.fetchResp = APIResponse.ok [⟨"q1", "AAAA", "q.example", "2001:db8::1"⟩] ∧
    stored_posts "q.example" [⟨"q1", "AAAA", "q.example", "2001:db8::1"⟩] =
      [⟨"q1", "AAAA", "q.example", "2001:db8::1"⟩] ∧
    (⟨"q1", "AAAA", "q.example", "2001:db8::1"⟩ : DNSRecord).content ≠ "2001:db8::8" ∧
    (runMain "q.example" envFetchDown = Except.error Fault.unhandled ∧
      runMain "q.example" envPatchDown = Except.error Fault.unhandled) :=
  ⟨rfl, rfl, rfl, by decide, by decide,
    fault_propagates "q.example" "2001:db8::8" envFetchDown envPatchDown
      [⟨"q1", "AAAA", "q.example", "2001:db8::1"⟩]
      ⟨"q1", "AAAA", "q.example", "2001:db8::1"⟩ []
      rfl rfl rfl (by decide) (by decide) rfl⟩
